import Mathlib

/-!
Verification development for the TopologyCollector repository
(`src/index.js` and the auxiliary collection scripts).

JavaScript strings are modelled as `List Char`; `undefined`/`null`
values as `Option`; fallible asynchronous transport operations as
`Except` values supplied by an oracle indexed by call order.
Each definition mirrors one function of the source.
-/

/-- Whitespace class of the JavaScript `\s` regex class and of
`String.prototype.trim`, restricted to the ASCII range
(space, tab, newline, carriage return, vertical tab, form feed). -/
def isJsWs (c : Char) : Bool :=
  c == ' ' || c == '\t' || c == '\n' || c == '\r' || c == '\x0b' || c == '\x0c'

/-- Characters of the trailing-prompt strip class `[#$>]` used by
`cleanShellResult` (`src/index.js:740`). -/
def isPromptTerm (c : Char) : Bool :=
  c == '#' || c == '$' || c == '>'

/-- Characters of the completion-test class `[$%#>]` used by the shell
data handlers (`src/index.js:468`, `:583`). -/
def isPromptChar (c : Char) : Bool :=
  c == '$' || c == '%' || c == '#' || c == '>'

/-- ASCII lower-casing of a string, modelling `String.prototype.toLowerCase`
on the ASCII inputs this program handles. -/
def lowerStr (s : List Char) : List Char :=
  s.map Char.toLower

/-- Model of `String.prototype.indexOf`: position of the first occurrence of
`pat` in the string, `none` when absent (JS returns `-1`). -/
def jsIndexOf (pat : List Char) : List Char → Option Nat
  | [] => if pat.isPrefixOf ([] : List Char) then some 0 else none
  | c :: t => if pat.isPrefixOf (c :: t) then some 0 else (jsIndexOf pat t).map (· + 1)

/-- Boolean substring test, as used for the `.test` of a literal
(escaped) regex pattern. -/
def containsSub (s pat : List Char) : Bool :=
  (jsIndexOf pat s).isSome

/-- Echo-removal step of `cleanShellResult` (`src/index.js:730-733`):
drop everything up to and including the first occurrence of the command;
leave the text unchanged when the command does not occur. -/
def removeEcho (s cmd : List Char) : List Char :=
  match jsIndexOf cmd s with
  | none => s
  | some i => s.drop (i + cmd.length)

/-- Right whitespace strip (helper for the `\s*$` parts of the prompt
regexes and for `trim`). -/
def rstrip (s : List Char) : List Char :=
  (s.reverse.dropWhile isJsWs).reverse

/-- Left whitespace strip (helper for `trim`). -/
def lstrip (s : List Char) : List Char :=
  s.dropWhile isJsWs

/-- Model of `String.prototype.trim`. -/
def jsTrim (s : List Char) : List Char :=
  lstrip (rstrip s)

/-- Model of `replace(/[#$>]\s*$/, '')` (`src/index.js:740`): the regex
matches iff the last non-whitespace character is one of `#$>`, and the
match consists of that character together with the trailing whitespace,
so the replacement removes exactly that tail; otherwise the string is
returned unchanged. -/
def stripTrailingPrompt (s : List Char) : List Char :=
  match s.reverse.dropWhile isJsWs with
  | c :: rest => if isPromptTerm c then rest.reverse else s
  | [] => s

/-- Model of `replace(/DGS-\d+-\d+SC:[a-zA-Z]+[#$>]\s*$/, '')`
(`src/index.js:738`).  A match anchored at the end of the string is
uniquely determined walking backwards: trailing whitespace, one prompt
terminator, a maximal nonempty letter run, the literal `SC:` (read
backwards `:`,`C`,`S`), a maximal nonempty digit run, `-`, a second
maximal nonempty digit run, and the literal `DGS-` (read backwards
`-`,`S`,`G`,`D`).  On a match the whole matched tail is removed. -/
def stripDGS (s : List Char) : List Char :=
  match s.reverse.dropWhile isJsWs with
  | c :: r2 =>
    if isPromptTerm c then
      if (r2.takeWhile Char.isAlpha).isEmpty then s else
      match r2.dropWhile Char.isAlpha with
      | ':' :: 'C' :: 'S' :: r4 =>
        if (r4.takeWhile Char.isDigit).isEmpty then s else
        match r4.dropWhile Char.isDigit with
        | '-' :: r6 =>
          if (r6.takeWhile Char.isDigit).isEmpty then s else
          match r6.dropWhile Char.isDigit with
          | '-' :: 'S' :: 'G' :: 'D' :: r8 => r8.reverse
          | _ => s
        | _ => s
      | _ => s
    else s
  | [] => s

/-- Connection settings object (a `BrandProfile` / `EffectiveProfile` /
`connectionSettings` override), with `Option` for fields a JSON entry
may omit.  Fields follow the hardcoded default profile of
`getDeviceSettings` (`src/index.js:152-161`). -/
structure ConnSettings where
  connectionMethod : Option (List Char)
  paginationMethod : Option (List Char)
  timeout : Option Int
  shellPrompt : Option (List Char)
  requiresEnable : Option Bool
  paginationInput : Option (List Char)
  commandTimeout : Option Int
  execTimeout : Option Int
  shellTimeout : Option Int
  deriving Repr, DecidableEq

/-- DeviceSpec: one entry of the device inventory, with the fields the
modelled code paths read. -/
structure Device where
  brand : Option (List Char)
  vendor : Option (List Char)
  paginationPrompts : Option (List (List Char))
  connectionSettings : Option ConnSettings
  timeout : Option Int
  commandTimeout : Option Int
  execTimeout : Option Int
  shellTimeout : Option Int
  requiresEnable : Bool
  enableCommand : Option (List Char)
  appendMissingConfig : Bool
  commandsConfig : List (List Char)
  commandsMac : List (List Char)
  deriving Repr, DecidableEq

/-- Lower-cased brand tag, `device.brand?.toLowerCase()`. -/
def brandLower (dev : Device) : Option (List Char) :=
  dev.brand.map lowerStr

/-- Brand test of `cleanShellResult` (`src/index.js:736-737`): the device
brand, lower-cased, equals `d-link` or `dlink`; reads `device.brand` only. -/
def isDlinkClean (dev : Device) : Bool :=
  match brandLower dev with
  | some b => b == "d-link".toList || b == "dlink".toList
  | none => false

/-- Brand-conditional prompt strip of `cleanShellResult`
(`src/index.js:736-739`): the DGS hostname-prompt strip applies to
D-Link brands only. -/
def brandPromptStrip (dev : Device) (s : List Char) : List Char :=
  if isDlinkClean dev then stripDGS s else s

/-- Output Normalizer, `cleanShellResult` (`src/index.js:726-745`):
remove everything up to and including the first occurrence of the
command, apply the D-Link hostname-prompt strip for D-Link brands,
strip one generic trailing prompt terminator, and trim. -/
def cleanShellResult (fullResult command : List Char) (dev : Device) : List Char :=
  jsTrim (stripTrailingPrompt (brandPromptStrip dev (removeEcho fullResult command)))

/-- Device with no brand information and no overrides, for concrete
evaluations. -/
def devPlain : Device :=
  { brand := none, vendor := none, paginationPrompts := none,
    connectionSettings := none, timeout := none, commandTimeout := none,
    execTimeout := none, shellTimeout := none, requiresEnable := false,
    enableCommand := none, appendMissingConfig := false,
    commandsConfig := [], commandsMac := [] }

example : cleanShellResult "show version\r\nVersion 1.0\r\nswitch#".toList
    "show version".toList devPlain = "Version 1.0\r\nswitch".toList := by decide

example : cleanShellResult "x##".toList "show".toList devPlain = "x#".toList := by decide

example : cleanShellResult "cmdcmd rest".toList "cmd".toList devPlain
    = "cmd rest".toList := by decide

example : stripDGS "abc\r\nDGS-1210-28SC:admin# ".toList = "abc\r\n".toList := by decide

example : stripDGS "abcDGS-1210-28SC:admin5# ".toList
    = "abcDGS-1210-28SC:admin5# ".toList := by decide

/-- Line terminator class of the JavaScript `.` regex metacharacter
(which matches any character except these). -/
def isLineTerm (c : Char) : Bool :=
  c == '\n' || c == '\r' || c == (Char.ofNat 0x2028) || c == (Char.ofNat 0x2029)

/-- Maximal line-terminator-free segments of a string. -/
def splitLines : List Char → List (List Char)
  | [] => [[]]
  | c :: t =>
    match splitLines t with
    | h :: r => if isLineTerm c then [] :: h :: r else (c :: h) :: r
    | [] => [[c]]

/-- Sequential containment: the literal pieces occur in order,
non-overlapping, inside `s`.  Searching greedily for the first
occurrence of each piece is complete for this existence question. -/
def seqContains : List Char → List (List Char) → Bool
  | _, [] => true
  | s, p :: ps =>
    match jsIndexOf p s with
    | none => false
    | some i => seqContains (s.drop (i + p.length)) ps

/-- Test of a case-insensitive regex `A.*B.*…` built from literal pieces:
since `.` excludes line terminators and the pieces contain none, the
regex matches iff some terminator-free segment contains the pieces in
order. -/
def dotSeq (lowered : List Char) (pats : List (List Char)) : Bool :=
  (splitLines lowered).any (fun l => seqContains l pats)

/-- Literal text of the pattern `\[Press 'A' for All or ENTER to continue\]`,
lower-cased. -/
def aForAllPat : List Char :=
  "[press ".toList ++ ['\''] ++ "a".toList ++ ['\''] ++ " for all or enter to continue]".toList

/-- D-Link pattern family of `needsMoreInput` (`src/index.js:646-654`). -/
def dlinkPatternsMatch (output : List Char) : Bool :=
  let s := lowerStr output
  dotSeq s ["quit".toList, "space".toList, "next".toList, "page".toList] ||
  dotSeq s ["space".toList, "n".toList, "next".toList, "page".toList] ||
  dotSeq s ["enter".toList, "next".toList, "entry".toList, "a".toList, "all".toList] ||
  containsSub s "a all".toList ||
  containsSub s "ctrl+c esc q quit space n next page enter next entry a all".toList ||
  containsSub s "press any key to continue (q to quit)".toList ||
  containsSub s "ctrl+c esc q quit space n next page".toList

/-- Test of `/More\s*$/i`: the string, with its maximal trailing
whitespace removed, ends with `more` (case-insensitively). -/
def endsWithMore (lowered : List Char) : Bool :=
  "more".toList.isSuffixOf (rstrip lowered)

/-- Standard pattern family of `needsMoreInput` (`src/index.js:657-665`). -/
def standardPatternsMatch (output : List Char) : Bool :=
  let s := lowerStr output
  containsSub s "--more--".toList ||
  containsSub s "press any key to continue".toList ||
  containsSub s "press space to continue".toList ||
  containsSub s "press enter to continue".toList ||
  containsSub s aForAllPat ||
  containsSub s "type <cr> to continue".toList ||
  endsWithMore s

/-- Pagination Matcher of the main collector, `needsMoreInput`
(`src/index.js:644-686`): the pattern family is selected from the
device brand alone; `device.paginationPrompts` is never consulted. -/
def needsMoreInput (output : List Char) (dev : Device) : Bool :=
  match brandLower dev with
  | some b =>
    if b == "d-link".toList || b == "dlink".toList then dlinkPatternsMatch output
    else standardPatternsMatch output
  | none => standardPatternsMatch output

/-- Test of a string prompt converted by
`new RegExp(prompt.replace(/[.*+?^${}()|[\]\\]/g, '\\$&'), 'i')`:
every metacharacter is escaped, so this is a case-insensitive literal
substring test. -/
def escRegexTest (output pat : List Char) : Bool :=
  containsSub (lowerStr output) (lowerStr pat)

/-- Pagination matcher of the standalone shell-test script,
`needsMoreInput` (`src/unnamed/part_006:11-37`): device-supplied
prompts (escaped literals) or a generic default family. -/
def needsMoreInput006 (output : List Char) (dev : Device) : Bool :=
  match dev.paginationPrompts with
  | some prompts => prompts.any (fun p => escRegexTest output p)
  | none =>
    let s := lowerStr output
    containsSub s "--more--".toList ||
    containsSub s "press any key to continue".toList ||
    containsSub s "press space to continue".toList ||
    containsSub s "press enter to continue".toList ||
    containsSub s aForAllPat ||
    containsSub s "type <cr> to continue".toList

/-- Four D-Link core patterns of `needsMoreInput` in the D-Link test
script (`src/unnamed/part_002:13-18`). -/
def dlinkCore4 (output : List Char) : Bool :=
  let s := lowerStr output
  dotSeq s ["quit".toList, "space".toList, "next".toList, "page".toList] ||
  dotSeq s ["space".toList, "n".toList, "next".toList, "page".toList] ||
  dotSeq s ["enter".toList, "next".toList, "entry".toList, "a".toList, "all".toList] ||
  containsSub s "a all".toList

/-- Pagination matcher of the D-Link test script, `needsMoreInput`
(`src/unnamed/part_002:11-50`): the D-Link core patterns are always
combined (`[...dlinkPatterns, ...prompts]`) with either the
device-supplied prompt list or the generic defaults. -/
def needsMoreInput002 (output : List Char) (dev : Device) : Bool :=
  dlinkCore4 output ||
  (match dev.paginationPrompts with
   | some prompts => prompts.any (fun p => escRegexTest output p)
   | none =>
     let s := lowerStr output
     containsSub s "ctrl+c esc q quit space n next page enter next entry a all".toList ||
     containsSub s "q quit space n next page enter next entry a all".toList ||
     containsSub s "--more--".toList ||
     containsSub s "press any key to continue".toList ||
     containsSub s "press space to continue".toList ||
     containsSub s "press enter to continue".toList ||
     containsSub s aForAllPat ||
     containsSub s "type <cr> to continue".toList)

example : needsMoreInput "--More--".toList devPlain = true := by decide

example : needsMoreInput "a All".toList
    { devPlain with brand := some "D-Link".toList } = true := by decide

example : needsMoreInput "a All".toList
    { devPlain with brand := some "Huawei".toList } = false := by decide

example : dotSeq (lowerStr "CTRL+C ESC q Quit SPACE n Next Page ENTER Next Entry a All".toList)
    ["quit".toList, "space".toList, "next".toList, "page".toList] = true := by decide

example : dotSeq "quit\nspace next page".toList
    ["quit".toList, "space".toList, "next".toList, "page".toList] = false := by decide

example : endsWithMore (lowerStr "line1 More \r\n".toList) = true := by decide

example : endsWithMore (lowerStr "line1 More x".toList) = false := by decide

/-- JavaScript `a || b` on string-valued fields: `a` unless it is
absent (`undefined`/`null`) or the empty string (both falsy). -/
def jsStrOr (a b : Option (List Char)) : Option (List Char) :=
  match a with
  | some s => if s.isEmpty then b else some s
  | none => b

/-- Hardcoded default profile of `getDeviceSettings`
(`src/index.js:152-161`); it sets no `shellTimeout`. -/
def defaultSettings : ConnSettings :=
  { connectionMethod := some "exec".toList, paginationMethod := some "exec".toList,
    timeout := some 30000, shellPrompt := some "/[$%#>]/".toList,
    requiresEnable := some false, paginationInput := some " ".toList,
    commandTimeout := some 10000, execTimeout := some 30000, shellTimeout := none }

/-- Lookup of `this.brandSettings[brand]`, the brand-settings map being an
association list. -/
def lookupBrand (bs : List (List Char × ConnSettings)) (k : List Char) : Option ConnSettings :=
  (bs.find? (fun e => e.1 == k)).map (·.2)

/-- Device Profile Resolver, `getDeviceSettings` (`src/index.js:143-172`):
full `connectionSettings` override, else brand profile keyed by
`device.brand || device.vendor` (default profile when no entry), with
the four timeout-class fields overridden by present, non-null device
fields. -/
def getDeviceSettings (bs : List (List Char × ConnSettings)) (dev : Device) : ConnSettings :=
  match dev.connectionSettings with
  | some cs => cs
  | none =>
    let brand := jsStrOr dev.brand dev.vendor
    let base :=
      match brand with
      | some b =>
        match lookupBrand bs b with
        | some p => p
        | none => defaultSettings
      | none => defaultSettings
    { base with
      timeout := match dev.timeout with | some v => some v | none => base.timeout
      commandTimeout := match dev.commandTimeout with | some v => some v | none => base.commandTimeout
      execTimeout := match dev.execTimeout with | some v => some v | none => base.execTimeout
      shellTimeout := match dev.shellTimeout with | some v => some v | none => base.shellTimeout }

/-- Timeout-class field names of the resolver's override loop
(`src/index.js:164`). -/
inductive TKey
  | timeout
  | commandTimeout
  | execTimeout
  | shellTimeout
  deriving Repr, DecidableEq

/-- Value of a timeout-class field on the device (spec-side vocabulary). -/
def devTimeoutField (dev : Device) : TKey → Option Int
  | .timeout => dev.timeout
  | .commandTimeout => dev.commandTimeout
  | .execTimeout => dev.execTimeout
  | .shellTimeout => dev.shellTimeout

/-- Overwrite of one timeout-class field of a profile (spec-side
vocabulary). -/
def setTimeoutField (s : ConnSettings) : TKey → Int → ConnSettings
  | .timeout, v => { s with timeout := some v }
  | .commandTimeout, v => { s with commandTimeout := some v }
  | .execTimeout, v => { s with execTimeout := some v }
  | .shellTimeout, v => { s with shellTimeout := some v }

/-- Spec-side base profile: `BrandProfile` keyed by the device's brand
(falling back to the vendor field), or the hardcoded default when no
entry matches (spec section 4.1, step 2). -/
def baseProfileSpec (bs : List (List Char × ConnSettings)) (dev : Device) : ConnSettings :=
  match jsStrOr dev.brand dev.vendor with
  | some b => (lookupBrand bs b).getD defaultSettings
  | none => defaultSettings

/-- Resolver as the spec words it (spec section 4.1): (1) a full
override object is returned unchanged; (2) else start from the brand
profile or the hardcoded default; (3) for each timeout-class field
present and non-null on the device, overwrite the corresponding field
of the result. -/
def resolverSpec (bs : List (List Char × ConnSettings)) (dev : Device) : ConnSettings :=
  match dev.connectionSettings with
  | some ov => ov
  | none =>
    [TKey.timeout, TKey.commandTimeout, TKey.execTimeout, TKey.shellTimeout].foldl
      (fun acc k =>
        match devTimeoutField dev k with
        | some v => setTimeoutField acc k v
        | none => acc)
      (baseProfileSpec bs dev)

/-- Error payloads of the modelled transport. -/
abbrev Err := List Char

/-- Concatenation of the replies `f start, f (start+1), …`, `n` of them,
in order. -/
def concatFrom (f : Nat → List Char) (start : Nat) : Nat → List Char
  | 0 => []
  | n + 1 => f start ++ concatFrom f (start + 1) n

/-- Pagination continuation loop of `executeCommandWithExec`
(`src/index.js:370-375`): while the accumulated result still matches a
pagination pattern and fewer than 200 continuation attempts were made,
send a continuation (`connection.exec`, modelled by the oracle at the
next call index) and append its reply; a failed call propagates.
`fuel` is `200 - attempts`; the second component counts oracle calls. -/
def execPaginationLoop (dev : Device) (oracle : Nat → Except Err (List Char))
    (acc : List Char) (callIdx : Nat) : Nat → (Except Err (List Char)) × Nat
  | 0 => (.ok acc, callIdx)
  | fuel + 1 =>
    if needsMoreInput acc dev then
      match oracle callIdx with
      | .error e => (.error e, callIdx + 1)
      | .ok more => execPaginationLoop dev oracle (acc ++ more) (callIdx + 1) fuel
    else (.ok acc, callIdx)

/-- Request/reply Response Reader, `executeCommandWithExec`
(`src/index.js:363-384`): one initial `exec` of the command then the
pagination loop with `maxAttempts = 200`; any failure is re-thrown.
The oracle gives the reply to the `k`-th transport call; the second
component counts the calls made. -/
def executeCommandWithExec (dev : Device) (oracle : Nat → Except Err (List Char)) :
    (Except Err (List Char)) × Nat :=
  match oracle 0 with
  | .error e => (.error e, 1)
  | .ok r => execPaginationLoop dev oracle r 1 200

/-- Effective connection method, `settings.connectionMethod || 'exec'`
(`src/index.js:354`). -/
def effectiveConnectionMethod (bs : List (List Char × ConnSettings)) (dev : Device) : List Char :=
  match (getDeviceSettings bs dev).connectionMethod with
  | some m => if m.isEmpty then "exec".toList else m
  | none => "exec".toList

/-- Dispatch of `executeCommand` (`src/index.js:352-361`): the shell
reader is used only when the effective method is exactly `shell`. -/
def usesShellReader (bs : List (List Char × ConnSettings)) (dev : Device) : Bool :=
  effectiveConnectionMethod bs dev == "shell".toList

/-- Test of `/[$%#>]\s*$/`: the last non-whitespace character is one of
`$%#>` (`src/index.js:468`, `:583`; `src/unnamed/part_006:104`). -/
def promptEndTest (s : List Char) : Bool :=
  match s.reverse.dropWhile isJsWs with
  | c :: _ => isPromptChar c
  | [] => false

/-- Decision taken by a shell data handler on one inbound chunk. -/
inductive SAction
  | pagination
  | complete
  | idle
  deriving Repr, DecidableEq

/-- Data handler of `executeCommandWithShell` (`src/index.js:445-477`):
pagination patterns first; else completion requires the chunk to end in
a prompt character and the accumulated result (after appending the
chunk) to be longer than the command length plus 10. -/
def shellDataAction (dev : Device) (command prevFull chunk : List Char) : SAction :=
  if needsMoreInput chunk dev then .pagination
  else if promptEndTest chunk && decide (command.length + 10 < (prevFull ++ chunk).length) then .complete
  else .idle

/-- Data handler of `executeCommand` in the raw-shell test script
(`src/unnamed/part_006:92-116`): completion on any chunk ending in a
prompt character, with no accumulated-length guard. -/
def part006DataAction (dev : Device) (chunk : List Char) : SAction :=
  if needsMoreInput006 chunk dev then .pagination
  else if promptEndTest chunk then .complete
  else .idle

/-- Events delivered to the D-Link shell reader: an inbound data chunk,
the inactivity timer firing, the 30 s hard timeout firing, stream close. -/
inductive DEvent
  | data (chunk : List Char)
  | inactivity
  | hardTimeout
  | close

/-- Writes and stream operations the D-Link reader can perform. -/
inductive DAction
  | sendPagination
  | sendLogout
  | destroy
  deriving Repr, DecidableEq

/-- Mutable state captured by the closures of `executeCommandForDLink`
(`src/index.js:514-519`). -/
structure DState where
  fullResult : List Char
  isComplete : Bool
  logoutSent : Bool
  streamClosed : Bool
  deriving Repr, DecidableEq

/-- Completion block shared by the prompt branch (`src/index.js:584-599`)
and the inactivity branch (`src/index.js:543-557`): send `logout` only
when this is the last command and it was not sent yet. -/
def dlinkFinish (isLastCommand : Bool) (st : DState) : DState × List DAction :=
  if isLastCommand && !st.logoutSent && !st.streamClosed then
    ({ st with isComplete := true, logoutSent := true }, [.sendLogout, .destroy])
  else if !st.streamClosed then
    ({ st with isComplete := true }, [.destroy])
  else
    ({ st with isComplete := true }, [])

/-- Event step of `executeCommandForDLink` (`src/index.js:510-642`). -/
def dlinkStep (dev : Device) (command : List Char) (isLastCommand : Bool)
    (st : DState) : DEvent → DState × List DAction
  | .data chunk =>
    let st1 := { st with fullResult := st.fullResult ++ chunk }
    if needsMoreInput chunk dev then (st1, [.sendPagination])
    else if promptEndTest chunk && decide (command.length + 10 < st1.fullResult.length) then
      if !st1.isComplete then dlinkFinish isLastCommand st1 else (st1, [])
    else (st1, [])
  | .inactivity =>
    if !st.isComplete then dlinkFinish isLastCommand st else (st, [])
  | .hardTimeout =>
    if !st.isComplete then
      ({ st with isComplete := true }, if !st.streamClosed then [.destroy] else [])
    else (st, [])
  | .close => ({ st with streamClosed := true }, [])

/-- Run of the D-Link reader over a sequence of events, collecting the
actions it performs. -/
def dlinkRun (dev : Device) (command : List Char) (isLastCommand : Bool) :
    DState → List DEvent → DState × List DAction
  | st, [] => (st, [])
  | st, e :: es =>
    let r := dlinkStep dev command isLastCommand st e
    let r2 := dlinkRun dev command isLastCommand r.1 es
    (r2.1, r.2 ++ r2.2)

/-- State at the start of one `executeCommandForDLink` call. -/
def initialDState : DState :=
  { fullResult := [], isComplete := false, logoutSent := false, streamClosed := false }

/-- Brand key of `collectConfigs` (`src/index.js:751`):
`(device.brand || device.vendor || '').toLowerCase()`. -/
def collectBrand (dev : Device) : List Char :=
  lowerStr ((jsStrOr dev.brand dev.vendor).getD [])

/-- D-Link test of `collectConfigs` (`src/index.js:770`, `:796`):
strict equality with `d-link`. -/
def isDlinkCollect (dev : Device) : Bool :=
  collectBrand dev == "d-link".toList

/-- Total command count of `collectConfigs` (`src/index.js:768-772`). -/
def totalCommands (dev : Device) : Nat :=
  dev.commandsConfig.length + dev.commandsMac.length +
    (if isDlinkCollect dev && dev.appendMissingConfig then 1 else 0)

/-- Commands executed over one device session by `collectConfigs`, in
order: the config list, the `show config effective` append pass for
D-Link devices with `appendMissingConfig`, then the MAC list
(`src/index.js:776-870`). -/
def scheduledCommands (dev : Device) : List (List Char) :=
  dev.commandsConfig ++
    (if isDlinkCollect dev && dev.appendMissingConfig then ["show config effective".toList] else []) ++
    dev.commandsMac

/-- Command sequence paired with the `isLastCommand` flag computed by
`collectConfigs`: `commandIndex` is incremented before each command and
the flag is `commandIndex === totalCommands`. -/
def commandSchedule (dev : Device) : List (List Char × Bool) :=
  (scheduledCommands dev).enum.map (fun p => (p.2, p.1 + 1 == totalCommands dev))

/-- Truthiness of an optional boolean JSON field. -/
def jsTruthy (o : Option Bool) : Bool :=
  o.getD false

/-- Session setup of `connectToDevice` (`src/index.js:174-262`):
a connect failure is re-thrown; when enable is required and configured,
its `exec` is attempted and a failure is caught and logged only.  The
result records whether privileged mode was entered. -/
def connectToDevice (settings : ConnSettings) (dev : Device)
    (connectR enableR : Except Err Unit) : Except Err Bool :=
  match connectR with
  | .error e => .error e
  | .ok _ =>
    if (jsTruthy settings.requiresEnable || dev.requiresEnable) && dev.enableCommand.isSome then
      match enableR with
      | .ok _ => .ok true
      | .error _ => .ok false
    else .ok false

/-- Commands attempted for one device by `collectConfigs`
(`src/index.js:747-899`): none when the connection fails, the full
schedule otherwise (individual command failures are caught per command
and do not stop the loop). -/
def collectDeviceCommands (settings : ConnSettings) (dev : Device)
    (connectR enableR : Except Err Unit) : List (List Char × Bool) :=
  match connectToDevice settings dev connectR enableR with
  | .error _ => []
  | .ok _ => commandSchedule dev

/-- Session setup and single-command run of `connectAndExecuteCommand`
in the D-Link test script (`src/unnamed/part_002:153-203`): the enable
`exec` is not wrapped in its own try/catch, so its failure propagates
and the command is never executed. -/
def connectAndExecuteCommand (dev : Device) (connectR enableR : Except Err Unit)
    (execR : Except Err (List Char)) : Except Err (List Char) :=
  match connectR with
  | .error e => .error e
  | .ok _ =>
    if dev.requiresEnable && dev.enableCommand.isSome then
      match enableR with
      | .error e => .error e
      | .ok _ => execR
    else execR

/-- Test whether a string ends with a character of the strip class `[#$>]`. -/
def endsWithTerm (s : List Char) : Bool :=
  match s.reverse with
  | c :: _ => isPromptTerm c
  | [] => false

/-- Test whether the trailing terminator/whitespace region of a string
holds at most one prompt terminator: after skipping trailing whitespace
and at most one terminator, the next non-whitespace character (if any)
is not a terminator. -/
def atMostOneTrailingTerm (s : List Char) : Bool :=
  match s.reverse.dropWhile isJsWs with
  | c :: rest =>
    if isPromptTerm c then
      match rest.dropWhile isJsWs with
      | c2 :: _ => !isPromptTerm c2
      | [] => true
    else true
  | [] => true

/-- Number of positions of the string at which `pat` occurs. -/
def numOccurrences (s pat : List Char) : Nat :=
  ((List.range (s.length + 1)).filter (fun i => pat.isPrefixOf (s.drop i))).length

/-- D-Link device carrying an explicit pagination pattern list. -/
def devExplicitDlink : Device :=
  { devPlain with brand := some "D-Link".toList, paginationPrompts := some ["XYZZY".toList] }

/-- Non-D-Link device carrying the same explicit pagination pattern list. -/
def devExplicitHuawei : Device :=
  { devPlain with brand := some "Huawei".toList, paginationPrompts := some ["XYZZY".toList] }

/-- Device requiring privileged-mode entry. -/
def devEnable : Device :=
  { devPlain with requiresEnable := true, enableCommand := some "enable".toList }

/-- Device with one config command and one MAC command. -/
def devSched : Device :=
  { devPlain with commandsConfig := ["show run".toList], commandsMac := ["show mac".toList] }

/-- Transport oracle whose first reply requests pagination and whose
first continuation fails. -/
def oracleBoom : Nat → Except Err (List Char) :=
  fun k => if k == 0 then .ok "--More--".toList else .error "boom".toList

/-- Raw transcript with command echo and trailing prompt, as the exec
path returns it. -/
def rawExecTranscript : List Char :=
  "show version\r\nVersion 1.0\r\nswitch#".toList

/-- Bridge from the boolean `isPrefixOf` to the `<+:` relation. -/
lemma isPrefixOf_eq_true_iff {l₁ l₂ : List Char} : l₁.isPrefixOf l₂ = true ↔ l₁ <+: l₂ :=
  List.isPrefixOf_iff_prefix

/-- Head of a `dropWhile` result fails the predicate. -/
lemma head_of_dropWhile_not {α : Type} (p : α → Bool) :
    ∀ (l : List α) (c : α), (l.dropWhile p).head? = some c → p c = false := by
  intro l
  induction l with
  | nil => intro c h; simp [List.dropWhile] at h
  | cons a t ih =>
    intro c h
    by_cases hp : p a
    · rw [List.dropWhile_cons, if_pos hp] at h
      exact ih c h
    · rw [List.dropWhile_cons, if_neg hp] at h
      simp at h
      rw [← h]
      exact Bool.eq_false_iff.mpr hp

/-- When the head fails the predicate, `dropWhile` is the identity. -/
lemma dropWhile_eq_self_of_head {α : Type} (p : α → Bool) (l : List α)
    (h : ∀ c, l.head? = some c → p c = false) : l.dropWhile p = l := by
  cases l with
  | nil => rfl
  | cons a t =>
    have ha := h a rfl
    rw [List.dropWhile_cons, if_neg (by simp [ha])]

/-- A `dropWhile` result is a suffix of the list. -/
lemma dropWhile_suf {α : Type} (p : α → Bool) : ∀ l : List α, l.dropWhile p <:+ l := by
  intro l
  induction l with
  | nil => exact List.suffix_refl _
  | cons a t ih =>
    by_cases hp : p a
    · rw [List.dropWhile_cons, if_pos hp]
      exact ih.trans (List.suffix_cons a t)
    · rw [List.dropWhile_cons, if_neg hp]

/-- Reversal maps a suffix relation to the corresponding relation on
the fronts. -/
lemma reverse_pre_of_suf {α : Type} {l₁ l₂ : List α} (h : l₁ <:+ l₂) :
    l₁.reverse <+: l₂.reverse := by
  obtain ⟨t, ht⟩ := h
  exact ⟨t.reverse, by rw [← ht, List.reverse_append]⟩

/-- Right strip yields an initial segment of the string. -/
lemma rstrip_pre (s : List Char) : rstrip s <+: s := by
  have h := reverse_pre_of_suf (dropWhile_suf isJsWs s.reverse)
  rwa [List.reverse_reverse] at h

/-- Left strip yields a final segment of the string. -/
lemma lstrip_suf (s : List Char) : lstrip s <:+ s :=
  dropWhile_suf isJsWs s

/-- Trimming yields a contiguous segment of the string. -/
lemma jsTrim_inf (s : List Char) : jsTrim s <:+: s :=
  (lstrip_suf (rstrip s)).isInfix.trans (rstrip_pre s).isInfix

/-- The trailing-prompt strip yields an initial segment of the string. -/
lemma stripTrailingPrompt_pre (s : List Char) : stripTrailingPrompt s <+: s := by
  unfold stripTrailingPrompt
  split
  · rename_i c rest heq
    split
    · have h1 : c :: rest <:+ s.reverse := by
        rw [← heq]; exact dropWhile_suf isJsWs s.reverse
      have h2 : rest <:+ s.reverse := (List.suffix_cons c rest).trans h1
      have h3 := reverse_pre_of_suf h2
      rwa [List.reverse_reverse] at h3
    · exact List.prefix_refl s
  · exact List.prefix_refl s

/-- The DGS-prompt strip yields an initial segment of the string. -/
lemma stripDGS_pre (s : List Char) : stripDGS s <+: s := by
  unfold stripDGS
  split
  · rename_i c r2 heq
    have h2 : r2 <:+ s.reverse := by
      have h1 : c :: r2 <:+ s.reverse := by
        rw [← heq]; exact dropWhile_suf isJsWs s.reverse
      exact (List.suffix_cons c r2).trans h1
    split
    · split
      · exact List.prefix_refl s
      · split
        · rename_i r4 heq3
          have ha : ':' :: 'C' :: 'S' :: r4 <:+ s.reverse := by
            rw [← heq3]; exact (dropWhile_suf Char.isAlpha r2).trans h2
          have h4 : r4 <:+ s.reverse := by
            have hc : r4 <:+ ':' :: 'C' :: 'S' :: r4 := ⟨[':', 'C', 'S'], rfl⟩
            exact hc.trans ha
          split
          · exact List.prefix_refl s
          · split
            · rename_i r6 heq5
              have hb : '-' :: r6 <:+ s.reverse := by
                rw [← heq5]; exact (dropWhile_suf Char.isDigit r4).trans h4
              have h6 : r6 <:+ s.reverse := (List.suffix_cons '-' r6).trans hb
              split
              · exact List.prefix_refl s
              · split
                · rename_i r8 heq7
                  have hd : '-' :: 'S' :: 'G' :: 'D' :: r8 <:+ s.reverse := by
                    rw [← heq7]; exact (dropWhile_suf Char.isDigit r6).trans h6
                  have h8 : r8 <:+ s.reverse := by
                    have hc : r8 <:+ '-' :: 'S' :: 'G' :: 'D' :: r8 :=
                      ⟨['-', 'S', 'G', 'D'], rfl⟩
                    exact hc.trans hd
                  have h9 := reverse_pre_of_suf h8
                  rwa [List.reverse_reverse] at h9
                · exact List.prefix_refl s
            · exact List.prefix_refl s
        · exact List.prefix_refl s
    · exact List.prefix_refl s
  · exact List.prefix_refl s

/-- A nonempty suffix of a list ending in `c` itself ends in `c`. -/
lemma ends_with_of_suf {s t : List Char} {c : Char} (h : s <:+ t ++ [c]) (hne : s ≠ []) :
    ∃ s', s = s' ++ [c] := by
  obtain ⟨u, hu⟩ := h
  have h1 : s.getLast? = some c := by
    have h2 : (u ++ s).getLast? = s.getLast? := List.getLast?_append_of_ne_nil u hne
    rw [hu, List.getLast?_append_cons] at h2
    exact h2.symm
  refine ⟨s.dropLast, ?_⟩
  have h3 := List.dropLast_append_getLast hne
  rw [List.getLast?_eq_getLast s hne] at h1
  have h4 : s.getLast hne = c := by injection h1
  rw [← h4]
  exact h3.symm

lemma endsWithTerm_append_one (s' : List Char) (c : Char) :
    endsWithTerm (s' ++ [c]) = isPromptTerm c := by
  simp [endsWithTerm, List.reverse_append]

/-- Trimming a string whose last non-whitespace character is not a
prompt terminator yields a string not ending in a terminator. -/
lemma endsWithTerm_jsTrim (x : List Char)
    (h : ∀ c rest, x.reverse.dropWhile isJsWs = c :: rest → isPromptTerm c = false) :
    endsWithTerm (jsTrim x) = false := by
  cases hd : x.reverse.dropWhile isJsWs with
  | nil =>
    have h0 : rstrip x = [] := by simp [rstrip, hd]
    simp [jsTrim, h0, lstrip, endsWithTerm]
  | cons c rest =>
    have hc := h c rest hd
    have hr : rstrip x = rest.reverse ++ [c] := by simp [rstrip, hd]
    by_cases hnil : lstrip (rstrip x) = []
    · simp [jsTrim, hnil, endsWithTerm]
    · have hsuf : lstrip (rstrip x) <:+ rest.reverse ++ [c] := by
        rw [← hr]; exact lstrip_suf _
      obtain ⟨s', hs'⟩ := ends_with_of_suf hsuf hnil
      show endsWithTerm (lstrip (rstrip x)) = false
      rw [hs', endsWithTerm_append_one]
      exact hc

/-- The reverse of a trimmed string has no leading whitespace. -/
lemma jsTrim_rev_dropWhile (x : List Char) :
    (jsTrim x).reverse.dropWhile isJsWs = (jsTrim x).reverse := by
  apply dropWhile_eq_self_of_head
  intro c hc
  cases hd : x.reverse.dropWhile isJsWs with
  | nil =>
    have h0 : rstrip x = [] := by simp [rstrip, hd]
    rw [show jsTrim x = [] from by simp [jsTrim, h0, lstrip]] at hc
    simp at hc
  | cons c0 rest =>
    have hw := head_of_dropWhile_not isJsWs x.reverse c0 (by rw [hd]; rfl)
    have hr : rstrip x = rest.reverse ++ [c0] := by simp [rstrip, hd]
    have hnil : jsTrim x ≠ [] := by
      intro hn; rw [hn] at hc; simp at hc
    have hsuf : jsTrim x <:+ rest.reverse ++ [c0] := by
      rw [← hr]; exact lstrip_suf _
    obtain ⟨s', hs'⟩ := ends_with_of_suf hsuf hnil
    rw [hs'] at hc
    simp [List.reverse_append] at hc
    rw [← hc]
    exact hw

/-- Left-stripping a trimmed string is the identity. -/
lemma lstrip_jsTrim (x : List Char) : lstrip (jsTrim x) = jsTrim x :=
  dropWhile_eq_self_of_head isJsWs _ (fun c hc => head_of_dropWhile_not isJsWs (rstrip x) c hc)

/-- Right-stripping a trimmed string is the identity. -/
lemma rstrip_jsTrim (x : List Char) : rstrip (jsTrim x) = jsTrim x := by
  unfold rstrip
  rw [jsTrim_rev_dropWhile, List.reverse_reverse]

/-- The generic trailing-prompt strip is the identity on strings with no
trailing whitespace and no terminal prompt character. -/
lemma stripTrailingPrompt_eq_self {r : List Char}
    (hrev : r.reverse.dropWhile isJsWs = r.reverse) (hterm : endsWithTerm r = false) :
    stripTrailingPrompt r = r := by
  unfold stripTrailingPrompt
  rw [hrev]
  cases hr : r.reverse with
  | nil => rfl
  | cons c rest =>
    have hp : isPromptTerm c = false := by
      unfold endsWithTerm at hterm
      rw [hr] at hterm
      exact hterm
    simp [hp]

/-- The DGS strip is the identity on strings with no trailing whitespace
and no terminal prompt character. -/
lemma stripDGS_eq_self {r : List Char}
    (hrev : r.reverse.dropWhile isJsWs = r.reverse) (hterm : endsWithTerm r = false) :
    stripDGS r = r := by
  unfold stripDGS
  rw [hrev]
  cases hr : r.reverse with
  | nil => rfl
  | cons c rest =>
    have hp : isPromptTerm c = false := by
      unfold endsWithTerm at hterm
      rw [hr] at hterm
      exact hterm
    simp [hp]

/-- A found index of `jsIndexOf` is an occurrence position. -/
lemma jsIndexOf_some_occ :
    ∀ (s pat : List Char) (i : Nat), jsIndexOf pat s = some i → pat <+: s.drop i := by
  intro s
  induction s with
  | nil =>
    intro pat i h
    unfold jsIndexOf at h
    split at h
    · rename_i hp
      injection h with h1
      rw [← h1]
      exact isPrefixOf_eq_true_iff.mp hp
    · exact absurd h (by simp)
  | cons c t ih =>
    intro pat i h
    unfold jsIndexOf at h
    split at h
    · rename_i hp
      injection h with h1
      rw [← h1]
      exact isPrefixOf_eq_true_iff.mp hp
    · rw [Option.map_eq_some'] at h
      obtain ⟨j, hj, hij⟩ := h
      rw [← hij]
      exact ih pat j hj

/-- When `jsIndexOf` finds nothing, the pattern occurs nowhere. -/
lemma jsIndexOf_none_occ :
    ∀ (s pat : List Char), jsIndexOf pat s = none → ∀ j, ¬ pat <+: s.drop j := by
  intro s
  induction s with
  | nil =>
    intro pat h j hocc
    unfold jsIndexOf at h
    split at h
    · exact absurd h (by simp)
    · rename_i hp
      rw [List.drop_nil] at hocc
      exact hp (isPrefixOf_eq_true_iff.mpr hocc)
  | cons c t ih =>
    intro pat h j hocc
    unfold jsIndexOf at h
    split at h
    · exact absurd h (by simp)
    · rename_i hp
      rw [Option.map_eq_none'] at h
      cases j with
      | zero => exact hp (isPrefixOf_eq_true_iff.mpr hocc)
      | succ j' => exact ih pat h j' hocc

/-- An occurrence position of a nonempty pattern belongs to the position
list counted by `numOccurrences`. -/
lemma occ_mem_filter (s pat : List Char) (hne : pat ≠ []) (j : Nat) (h : pat <+: s.drop j) :
    j ∈ (List.range (s.length + 1)).filter (fun i => pat.isPrefixOf (s.drop i)) := by
  have hj : j ≤ s.length := by
    by_contra hgt
    push_neg at hgt
    have hd : s.drop j = [] := by
      rw [List.drop_eq_nil_iff]
      omega
    rw [hd] at h
    have hpn := List.prefix_nil.mp h
    exact hne hpn
  rw [List.mem_filter]
  constructor
  · rw [List.mem_range]
    omega
  · exact isPrefixOf_eq_true_iff.mpr h

/-- A list holding two distinct elements has length at least two. -/
lemma two_le_length_of_two_mem {α : Type} {l : List α} {a b : α}
    (ha : a ∈ l) (hb : b ∈ l) (hne : a ≠ b) : 2 ≤ l.length := by
  match l with
  | [] => cases ha
  | [x] =>
    rw [List.mem_singleton] at ha hb
    exact absurd (ha.trans hb.symm) hne
  | x :: y :: t => simp

/-- The normalizer output is a contiguous segment of the echo-stripped
text. -/
lemma cleanShellResult_inf (raw cmd : List Char) (dev : Device) :
    cleanShellResult raw cmd dev <:+: removeEcho raw cmd := by
  unfold cleanShellResult
  have h1 : brandPromptStrip dev (removeEcho raw cmd) <+: removeEcho raw cmd := by
    unfold brandPromptStrip
    split
    · exact stripDGS_pre _
    · exact List.prefix_refl _
  have h2 := (stripTrailingPrompt_pre (brandPromptStrip dev (removeEcho raw cmd))).trans h1
  exact (jsTrim_inf _).trans h2.isInfix

/-- C1 (amended): the Output Normalizer result does not begin with the
command provided the command occurs at most once in the raw text, and
does not end with a prompt terminator provided the echo-stripped,
brand-stripped text carries at most one terminator in its trailing
terminator/whitespace region.  (With a repeated echo or repeated
trailing terminators the stated invariant fails; see the
counterexample.) -/
theorem cleanShellResult_guarded_invariant :
    ∀ (raw cmd : List Char) (dev : Device),
      (cmd ≠ [] → numOccurrences raw cmd ≤ 1 → ¬ cmd <+: cleanShellResult raw cmd dev) ∧
      (atMostOneTrailingTerm (brandPromptStrip dev (removeEcho raw cmd)) = true →
        endsWithTerm (cleanShellResult raw cmd dev) = false) := by
  intro raw cmd dev
  constructor
  · intro hne hocc hcontra
    have hinf : cmd <:+: removeEcho raw cmd :=
      hcontra.isInfix.trans (cleanShellResult_inf raw cmd dev)
    obtain ⟨pre, suf, hps⟩ := hinf
    have hdrop : cmd <+: (removeEcho raw cmd).drop pre.length := by
      rw [← hps, List.append_assoc, List.drop_left]
      exact List.prefix_append cmd suf
    cases hidx : jsIndexOf cmd raw with
    | none =>
      have hre : removeEcho raw cmd = raw := by unfold removeEcho; rw [hidx]
      rw [hre] at hdrop
      exact jsIndexOf_none_occ raw cmd hidx pre.length hdrop
    | some i =>
      have hre : removeEcho raw cmd = raw.drop (i + cmd.length) := by
        unfold removeEcho; rw [hidx]
      rw [hre, List.drop_drop] at hdrop
      have hocc1 := jsIndexOf_some_occ raw cmd i hidx
      have hmem1 := occ_mem_filter raw cmd hne i hocc1
      have hmem2 := occ_mem_filter raw cmd hne (i + cmd.length + pre.length) hdrop
      have hlen : 0 < cmd.length := List.length_pos.mpr hne
      have hne2 : i ≠ i + cmd.length + pre.length := by omega
      have h2 := two_le_length_of_two_mem hmem1 hmem2 hne2
      unfold numOccurrences at hocc
      omega
  · intro ham
    cases hd : (brandPromptStrip dev (removeEcho raw cmd)).reverse.dropWhile isJsWs with
    | nil =>
      have hst : stripTrailingPrompt (brandPromptStrip dev (removeEcho raw cmd))
          = brandPromptStrip dev (removeEcho raw cmd) := by
        unfold stripTrailingPrompt; rw [hd]
      unfold cleanShellResult
      rw [hst]
      exact endsWithTerm_jsTrim _ (fun c rest h => by rw [hd] at h; cases h)
    | cons c rest =>
      by_cases hterm : isPromptTerm c
      · have hst : stripTrailingPrompt (brandPromptStrip dev (removeEcho raw cmd))
            = rest.reverse := by
          unfold stripTrailingPrompt; rw [hd]; simp [hterm]
        unfold cleanShellResult
        rw [hst]
        apply endsWithTerm_jsTrim
        intro c2 rest2 h2
        rw [List.reverse_reverse] at h2
        unfold atMostOneTrailingTerm at ham
        rw [hd] at ham
        simp only [hterm, if_true] at ham
        rw [h2] at ham
        simpa using ham
      · have hst : stripTrailingPrompt (brandPromptStrip dev (removeEcho raw cmd))
            = brandPromptStrip dev (removeEcho raw cmd) := by
          unfold stripTrailingPrompt; rw [hd]; simp [hterm]
        unfold cleanShellResult
        rw [hst]
        apply endsWithTerm_jsTrim
        intro c2 rest2 h2
        rw [hd] at h2
        injection h2 with ha hb
        rw [← ha]
        exact Bool.eq_false_iff.mpr hterm

/-- C1 counterexample: on raw text ending in repeated terminator
characters the result still ends with a bare terminator, and on a
doubled echo the result still begins with the verbatim command. -/
theorem cleanShellResult_invariant_cex :
    endsWithTerm (cleanShellResult "x##".toList "show".toList devPlain) = true ∧
    "cmd".toList <+: cleanShellResult "cmdcmd rest".toList "cmd".toList devPlain := by
  constructor
  · decide
  · decide

theorem cleanShellResult_guarded_invariant_witness :
    (¬ "show ver".toList <+:
        cleanShellResult "show ver\r\nHello\r\n#".toList "show ver".toList devPlain) ∧
    endsWithTerm (cleanShellResult "show ver\r\nHello\r\n#".toList "show ver".toList devPlain)
      = false :=
  ⟨(cleanShellResult_guarded_invariant "show ver\r\nHello\r\n#".toList "show ver".toList
      devPlain).1 (by decide) (by decide),
   (cleanShellResult_guarded_invariant "show ver\r\nHello\r\n#".toList "show ver".toList
      devPlain).2 (by decide)⟩

/-- C7 (amended): the Output Normalizer is idempotent on every result
that no longer contains the command and does not end in a prompt
terminator; without those conditions a second pass can strip further
(see the counterexample). -/
theorem cleanShellResult_idem_on_clean :
    ∀ (raw cmd : List Char) (dev : Device),
      jsIndexOf cmd (cleanShellResult raw cmd dev) = none →
      endsWithTerm (cleanShellResult raw cmd dev) = false →
      cleanShellResult (cleanShellResult raw cmd dev) cmd dev = cleanShellResult raw cmd dev := by
  intro raw cmd dev h1 h2
  have hrev : (cleanShellResult raw cmd dev).reverse.dropWhile isJsWs
      = (cleanShellResult raw cmd dev).reverse := by
    unfold cleanShellResult
    exact jsTrim_rev_dropWhile _
  have hecho : removeEcho (cleanShellResult raw cmd dev) cmd = cleanShellResult raw cmd dev := by
    unfold removeEcho; rw [h1]
  have hbrand : brandPromptStrip dev (cleanShellResult raw cmd dev)
      = cleanShellResult raw cmd dev := by
    unfold brandPromptStrip
    split
    · exact stripDGS_eq_self hrev h2
    · rfl
  have hstp := stripTrailingPrompt_eq_self hrev h2
  have hrst : rstrip (cleanShellResult raw cmd dev) = cleanShellResult raw cmd dev := by
    unfold cleanShellResult
    exact rstrip_jsTrim _
  have hlst : lstrip (cleanShellResult raw cmd dev) = cleanShellResult raw cmd dev := by
    unfold cleanShellResult
    exact lstrip_jsTrim _
  show jsTrim (stripTrailingPrompt (brandPromptStrip dev
      (removeEcho (cleanShellResult raw cmd dev) cmd))) = cleanShellResult raw cmd dev
  rw [hecho, hbrand, hstp]
  unfold jsTrim
  rw [hrst, hlst]

/-- C7 counterexample: on a transcript whose output itself contains the
command text, running the normalizer twice strips more than running it
once, so the normalizer is not idempotent as claimed. -/
theorem cleanShellResult_not_idempotent_cex :
    cleanShellResult (cleanShellResult "cmd cmd x".toList "cmd".toList devPlain)
        "cmd".toList devPlain
      ≠ cleanShellResult "cmd cmd x".toList "cmd".toList devPlain := by decide

theorem cleanShellResult_idem_on_clean_witness :
    cleanShellResult (cleanShellResult "show ver\r\nWorld\r\n#".toList "show ver".toList devPlain)
        "show ver".toList devPlain
      = cleanShellResult "show ver\r\nWorld\r\n#".toList "show ver".toList devPlain :=
  cleanShellResult_idem_on_clean "show ver\r\nWorld\r\n#".toList "show ver".toList devPlain
    (by decide) (by decide)

/-- C2 counterexample: two devices with the same explicit
`paginationPrompts` list and the same chunk get different decisions
from the main collector's Pagination Matcher, so the decision is not a
function of the explicit list: it follows the brand family and the
explicit list is ignored. -/
theorem needsMoreInput_explicit_list_cex :
    needsMoreInput "a All".toList devExplicitDlink = true ∧
    needsMoreInput "a All".toList devExplicitHuawei = false := by
  constructor
  · decide
  · decide

/-- C2 (amended): the main collector's Pagination Matcher never
consults the device's explicit pattern list — its decision is a
function of the chunk and the brand family alone; and in the D-Link
test script's matcher the D-Link family patterns are always tested in
addition to any explicit list, so the family patterns are not skipped. -/
theorem needsMoreInput_ignores_explicit_list :
    (∀ (output : List Char) (dev : Device) (prompts : Option (List (List Char))),
        needsMoreInput output { dev with paginationPrompts := prompts }
          = needsMoreInput output dev) ∧
    (∀ (output : List Char) (dev : Device),
        dlinkCore4 output = true → needsMoreInput002 output dev = true) := by
  constructor
  · intro output dev prompts
    rfl
  · intro output dev h
    unfold needsMoreInput002
    rw [h]
    rfl

theorem needsMoreInput_ignores_explicit_list_witness :
    needsMoreInput002 "a All".toList devPlain = true :=
  needsMoreInput_ignores_explicit_list.2 "a All".toList devPlain (by decide)

/-- C3 counterexample: on the spec's worked example the normalizer does
not return `"Version 1.0"` — the generic strip removes only the bare
`#`, not the `switch` hostname before it. -/
theorem normalizer_example_cex :
    cleanShellResult "show version\r\nVersion 1.0\r\nswitch#".toList
        "show version".toList devPlain
      ≠ "Version 1.0".toList := by decide

/-- C3 (amended): on the transcript `"show version\r\nVersion
1.0\r\nswitch#"` with command `"show version"` and a device with no
brand-specific prompt pattern, the normalized result is
`"Version 1.0\r\nswitch"`. -/
theorem normalizer_example_value :
    cleanShellResult "show version\r\nVersion 1.0\r\nswitch#".toList
        "show version".toList devPlain
      = "Version 1.0\r\nswitch".toList := by decide

/-- C4: the Device Profile Resolver agrees everywhere with the
spec-worded resolver — full override returned unchanged, else the brand
profile (vendor fallback, hardcoded default) with each present,
non-null timeout-class device field overwriting the corresponding
result field; being a total function it never fails. -/
theorem getDeviceSettings_follows_priority_order :
    ∀ (bs : List (List Char × ConnSettings)) (dev : Device),
      getDeviceSettings bs dev = resolverSpec bs dev := by
  intro bs dev
  obtain ⟨b, v, pp, cs, t0, c0, e0, s0, rE, eC, aM, cc, cm⟩ := dev
  cases cs with
  | some ov => rfl
  | none =>
    unfold getDeviceSettings resolverSpec baseProfileSpec
    dsimp only
    cases hbv : jsStrOr b v with
    | none => cases t0 <;> cases c0 <;> cases e0 <;> cases s0 <;> rfl
    | some bb =>
      dsimp only
      cases hlb : lookupBrand bs bb with
      | none => cases t0 <;> cases c0 <;> cases e0 <;> cases s0 <;> rfl
      | some p => cases t0 <;> cases c0 <;> cases e0 <;> cases s0 <;> rfl

/-- C8 counterexample: in the D-Link test script's
`connectAndExecuteCommand`, a failure of the privileged-mode entry
command propagates as the command's failure and the configured command
is never executed. -/
theorem connectAndExecuteCommand_enable_cex :
    connectAndExecuteCommand devEnable (.ok ()) (.error "enable refused".toList)
        (.ok "output".toList)
      = .error "enable refused".toList := by rfl

/-- C8 (amended): in the main collector an enable failure is caught and
logged: `connectToDevice` still succeeds after a successful connect
whatever the enable outcome, and `collectConfigs` still attempts the
device's full command schedule; in the standalone script the failure
propagates (see the counterexample). -/
theorem connectToDevice_tolerates_enable_failure :
    ∀ (settings : ConnSettings) (dev : Device) (enableR : Except Err Unit),
      (connectToDevice settings dev (.ok ()) enableR).isOk = true ∧
      collectDeviceCommands settings dev (.ok ()) enableR = commandSchedule dev := by
  intro settings dev enableR
  have h : ∃ b, connectToDevice settings dev (.ok ()) enableR = .ok b := by
    unfold connectToDevice
    by_cases hc : ((jsTruthy settings.requiresEnable || dev.requiresEnable)
        && dev.enableCommand.isSome) = true
    · cases enableR with
      | error e => exact ⟨false, by simp [hc]⟩
      | ok u => exact ⟨true, by simp [hc]⟩
    · exact ⟨false, by simp [hc]⟩
  obtain ⟨b, hb⟩ := h
  constructor
  · rw [hb]; rfl
  · unfold collectDeviceCommands
    rw [hb]

/-- The pagination loop makes at most `fuel` further transport calls. -/
lemma execPaginationLoop_calls_le (dev : Device) (oracle : Nat → Except Err (List Char)) :
    ∀ (fuel : Nat) (acc : List Char) (idx : Nat),
      (execPaginationLoop dev oracle acc idx fuel).2 ≤ idx + fuel := by
  intro fuel
  induction fuel with
  | zero => intro acc idx; simp [execPaginationLoop]
  | succ n ih =>
    intro acc idx
    unfold execPaginationLoop
    split
    · cases h : oracle idx with
      | error e => simp
      | ok more =>
        dsimp only
        have := ih (acc ++ more) (idx + 1)
        omega
    · simp

/-- With an always-successful transport the pagination loop returns the
accumulator extended by the received continuation replies, in order. -/
lemma execPaginationLoop_all_ok (dev : Device) (f : Nat → List Char) :
    ∀ (fuel : Nat) (acc : List Char) (idx : Nat),
      ∃ j, j ≤ fuel ∧
        execPaginationLoop dev (fun k => .ok (f k)) acc idx fuel
          = (.ok (acc ++ concatFrom f idx j), idx + j) := by
  intro fuel
  induction fuel with
  | zero =>
    intro acc idx
    exact ⟨0, Nat.le_refl 0, by simp [execPaginationLoop, concatFrom]⟩
  | succ n ih =>
    intro acc idx
    unfold execPaginationLoop
    split
    · obtain ⟨j, hj, he⟩ := ih (acc ++ f idx) (idx + 1)
      refine ⟨j + 1, by omega, ?_⟩
      dsimp only
      rw [he]
      rw [Prod.mk.injEq]
      constructor
      · rw [concatFrom, List.append_assoc]
      · omega
    · exact ⟨0, Nat.zero_le _, by simp [concatFrom]⟩

/-- A loop failure is the failure of one of the transport calls made. -/
lemma execPaginationLoop_error_source (dev : Device) (oracle : Nat → Except Err (List Char)) :
    ∀ (fuel : Nat) (acc : List Char) (idx : Nat) (e : Err),
      (execPaginationLoop dev oracle acc idx fuel).1 = .error e →
      ∃ k, idx ≤ k ∧ k < idx + fuel ∧ oracle k = .error e := by
  intro fuel
  induction fuel with
  | zero => intro acc idx e h; simp [execPaginationLoop] at h
  | succ n ih =>
    intro acc idx e h
    unfold execPaginationLoop at h
    split at h
    · cases ho : oracle idx with
      | error e2 =>
        rw [ho] at h
        simp at h
        exact ⟨idx, Nat.le_refl idx, by omega, by rw [ho, h]⟩
      | ok more =>
        rw [ho] at h
        obtain ⟨k, hk1, hk2, hk3⟩ := ih (acc ++ more) (idx + 1) e h
        exact ⟨k, by omega, by omega, hk3⟩
    · simp at h

/-- C5: in the request/reply Response Reader a failure of the initial
call or of any continuation call propagates as the command's failure
(and every failure originates in a transport call), the loop makes at
most 200 continuation attempts (201 calls in total), and with a
transport that keeps succeeding the reader never fails — it returns the
initial reply concatenated with the continuation replies received, in
order, even when the attempt ceiling is reached. -/
theorem executeCommandWithExec_spec :
    (∀ (dev : Device) (oracle : Nat → Except Err (List Char)) (e : Err),
        oracle 0 = .error e → executeCommandWithExec dev oracle = (.error e, 1)) ∧
    (∀ (dev : Device) (oracle : Nat → Except Err (List Char)) (r : List Char) (e : Err),
        oracle 0 = .ok r → needsMoreInput r dev = true → oracle 1 = .error e →
        (executeCommandWithExec dev oracle).1 = .error e) ∧
    (∀ (dev : Device) (oracle : Nat → Except Err (List Char)),
        (executeCommandWithExec dev oracle).2 ≤ 201) ∧
    (∀ (dev : Device) (oracle : Nat → Except Err (List Char)) (e : Err),
        (executeCommandWithExec dev oracle).1 = .error e →
        ∃ k, k ≤ 200 ∧ oracle k = .error e) ∧
    (∀ (dev : Device) (f : Nat → List Char),
        ∃ n, n ≤ 200 ∧
          executeCommandWithExec dev (fun k => .ok (f k))
            = (.ok (concatFrom f 0 (n + 1)), n + 1)) := by
  refine ⟨?_, ?_, ?_, ?_, ?_⟩
  · intro dev oracle e h
    unfold executeCommandWithExec
    rw [h]
  · intro dev oracle r e h0 h1 h2
    unfold executeCommandWithExec
    rw [h0]
    rw [show (200 : Nat) = 199 + 1 from rfl]
    unfold execPaginationLoop
    rw [if_pos h1, h2]
  · intro dev oracle
    unfold executeCommandWithExec
    cases h : oracle 0 with
    | error e => simp
    | ok r =>
      dsimp only
      have := execPaginationLoop_calls_le dev oracle 200 r 1
      omega
  · intro dev oracle e h
    unfold executeCommandWithExec at h
    cases ho : oracle 0 with
    | error e2 =>
      rw [ho] at h
      simp at h
      exact ⟨0, by omega, by rw [ho, h]⟩
    | ok r =>
      rw [ho] at h
      dsimp only at h
      obtain ⟨k, hk1, hk2, hk3⟩ := execPaginationLoop_error_source dev oracle 200 r 1 e h
      exact ⟨k, by omega, hk3⟩
  · intro dev f
    obtain ⟨j, hj, he⟩ := execPaginationLoop_all_ok dev f 200 (f 0) 1
    refine ⟨j, hj, ?_⟩
    unfold executeCommandWithExec
    dsimp only
    rw [he]
    rw [Prod.mk.injEq]
    constructor
    · rw [concatFrom]
    · omega

theorem executeCommandWithExec_spec_witness :
    (executeCommandWithExec devPlain oracleBoom).1 = .error "boom".toList :=
  executeCommandWithExec_spec.2.1 devPlain oracleBoom "--More--".toList "boom".toList
    rfl (by decide) rfl

/-- C6 counterexample: the raw-shell test script's reader declares
prompt-based completion on a bare `>` chunk although the accumulated
length (1) does not exceed the command length plus the safety margin. -/
theorem part006_completion_no_margin_cex :
    part006DataAction devPlain ">".toList = SAction.complete ∧
    ¬ ("show fdb".toList.length + 10 < (([] : List Char) ++ ">".toList).length) := by
  constructor
  · decide
  · decide

/-- C6 (amended): in the main collector's two shell readers,
prompt-based completion is declared only when the latest chunk ends
with a character of `[$%#>]` and the accumulated length exceeds the
command length by more than 10; the reader of the raw-shell test script
omits the length guard (see the counterexample). -/
theorem shell_completion_requires_prompt_and_margin :
    (∀ (dev : Device) (command prevFull chunk : List Char),
        shellDataAction dev command prevFull chunk = SAction.complete →
        promptEndTest chunk = true ∧ command.length + 10 < (prevFull ++ chunk).length) ∧
    (∀ (dev : Device) (command : List Char) (isLast : Bool) (st : DState) (chunk : List Char),
        st.isComplete = false →
        ((dlinkStep dev command isLast st (.data chunk)).1).isComplete = true →
        promptEndTest chunk = true ∧ command.length + 10 < (st.fullResult ++ chunk).length) := by
  constructor
  · intro dev command prevFull chunk h
    unfold shellDataAction at h
    split at h
    · cases h
    · split at h
      · rename_i hcond
        simp only [Bool.and_eq_true, decide_eq_true_eq] at hcond
        exact hcond
      · cases h
  · intro dev command isLast st chunk h0 h1
    unfold dlinkStep at h1
    dsimp only at h1
    split at h1
    · rw [h0] at h1
      cases h1
    · split at h1
      · rename_i hcond
        simp only [Bool.and_eq_true, decide_eq_true_eq] at hcond
        exact hcond
      · rw [h0] at h1
        cases h1

theorem shell_completion_requires_prompt_and_margin_witness :
    promptEndTest "switch#".toList = true ∧
    "sh".toList.length + 10 < ("0123456789012345".toList ++ "switch#".toList).length :=
  shell_completion_requires_prompt_and_margin.1 devPlain "sh".toList
    "0123456789012345".toList "switch#".toList (by decide)

/-- The completion block never sends `logout` when the last-command flag
is down. -/
lemma dlinkFinish_no_logout (st : DState) :
    DAction.sendLogout ∉ (dlinkFinish false st).2 := by
  unfold dlinkFinish
  split
  · rename_i h
    simp at h
  · split <;> simp

/-- No single step of the D-Link reader sends `logout` when the
last-command flag is down. -/
lemma dlinkStep_no_logout (dev : Device) (command : List Char) (st : DState) (e : DEvent) :
    DAction.sendLogout ∉ (dlinkStep dev command false st e).2 := by
  cases e with
  | data chunk =>
    simp only [dlinkStep]
    split
    · simp
    · split
      · split
        · exact dlinkFinish_no_logout _
        · simp
      · simp
  | inactivity =>
    simp only [dlinkStep]
    split
    · exact dlinkFinish_no_logout _
    · simp
  | hardTimeout =>
    simp only [dlinkStep]
    split
    · split <;> simp
    · simp
  | close => simp [dlinkStep]

/-- No run of the D-Link reader sends `logout` when the last-command
flag is down. -/
lemma dlinkRun_no_logout (dev : Device) (command : List Char) :
    ∀ (evs : List DEvent) (st : DState),
      DAction.sendLogout ∉ (dlinkRun dev command false st evs).2 := by
  intro evs
  induction evs with
  | nil => intro st; simp [dlinkRun]
  | cons e es ih =>
    intro st
    unfold dlinkRun
    intro hmem
    rcases List.mem_append.mp hmem with hm | hm
    · exact dlinkStep_no_logout dev command st e hm
    · exact ih _ hm

/-- C9: the schedule built by `collectConfigs` carries exactly
`totalCommands` entries, the last-command flag of the `i`-th (1-based)
entry is set iff `i` equals the total count (config plus MAC plus the
D-Link append pass), and the D-Link reader sends its `logout` sign-off
on no event whatsoever when the flag is down. -/
theorem collectConfigs_last_flag :
    (∀ dev : Device, (commandSchedule dev).length = totalCommands dev) ∧
    (∀ (dev : Device) (i : Nat) (h : i < (commandSchedule dev).length),
        ((commandSchedule dev).get ⟨i, h⟩).2 = true ↔ i + 1 = totalCommands dev) ∧
    (∀ (dev : Device) (command : List Char) (st : DState) (evs : List DEvent),
        DAction.sendLogout ∉ (dlinkRun dev command false st evs).2) := by
  refine ⟨?_, ?_, ?_⟩
  · intro dev
    unfold commandSchedule totalCommands scheduledCommands
    rw [List.length_map, List.enum_length]
    by_cases h : (isDlinkCollect dev && dev.appendMissingConfig) = true
    · simp [h]
      omega
    · simp [h]
  · intro dev i h
    unfold commandSchedule
    rw [List.get_eq_getElem, List.getElem_map, List.getElem_enum]
    dsimp only
    simp [beq_iff_eq]
  · intro dev command st evs
    exact dlinkRun_no_logout dev command evs st

theorem collectConfigs_last_flag_witness :
    ((commandSchedule devSched).get ⟨1, by decide⟩).2 = true :=
  (collectConfigs_last_flag.2.1 devSched 1 (by decide)).mpr (by decide)

/-- C10: a device whose effective connection method is `exec` is never
routed to the shell reader, the exec reader returns the plain
concatenation of the transport replies with no normalization step, and
on a transcript with echo and trailing prompt the returned value starts
with the verbatim command and ends with a prompt terminator — the
CommandResult invariant is not enforced on this path. -/
theorem executeCommand_exec_path_raw :
    (∀ (bs : List (List Char × ConnSettings)) (dev : Device),
        effectiveConnectionMethod bs dev = "exec".toList → usesShellReader bs dev = false) ∧
    (∀ (dev : Device) (f : Nat → List Char),
        ∃ n, n ≤ 200 ∧
          (executeCommandWithExec dev (fun k => .ok (f k))).1 = .ok (concatFrom f 0 (n + 1))) ∧
    ((executeCommandWithExec devPlain (fun _ => .ok rawExecTranscript)).1
        = .ok rawExecTranscript ∧
      "show version".toList <+: rawExecTranscript ∧
      endsWithTerm rawExecTranscript = true) := by
  refine ⟨?_, ?_, ?_⟩
  · intro bs dev h
    unfold usesShellReader
    rw [h]
    decide
  · intro dev f
    obtain ⟨j, hj, he⟩ := execPaginationLoop_all_ok dev f 200 (f 0) 1
    refine ⟨j, hj, ?_⟩
    unfold executeCommandWithExec
    dsimp only
    rw [he]
    rfl
  · refine ⟨?_, ?_, ?_⟩
    · rfl
    · decide
    · decide

theorem executeCommand_exec_path_raw_witness :
    usesShellReader [] devPlain = false :=
  executeCommand_exec_path_raw.1 [] devPlain (by decide)
